import Mathlib

/-!
Verification development for the Necromancer repository, a Rust interpreter
for the ZOMBIE language. The definitions below are a shallow embedding of
the program's data model and operations:

- src/value.rs: the dynamic Value type with its Add/Div/Neg operators and
  the derived structural PartialEq;
- src/scroll/: the immutable program model (expressions, statements, tasks,
  entities, species);
- src/necro/summon.rs: the expression evaluator (a local stack seeded with
  Void, expressions processed last-to-first) and the statement executor of
  a single runner, given here as a fuel-bounded sequential interpreter that
  records a trace of events (statements entered, messages sent, logged
  fatal errors);
- src/necro/mod.rs: the ritual's message handler and the candle (live-copy
  counting) mechanism built from a DashSet of Arc-counted names.

Machine integers of the source (i64) are modelled as Int together with
explicit range checks mirroring the checked arithmetic of the source.
Randomness (corruption tokens, zalgo cursing, shuffles) is threaded as
oracle parameters. Panics and parking on the activity notifier are
explicit outcomes of the interpreter.
-/

/-- Lower bound of the i64 range, as used by the checked arithmetic in src/value.rs. -/
def i64Min : Int := -(2 ^ 63)

/-- Upper bound of the i64 range. -/
def i64Max : Int := 2 ^ 63 - 1

/-- Membership of an integer in the i64 range; checked_add and friends
succeed exactly when their mathematical result satisfies this. -/
def inI64 (n : Int) : Prop := i64Min ≤ n ∧ n ≤ i64Max

instance (n : Int) : Decidable (inI64 n) :=
  inferInstanceAs (Decidable (_ ∧ _))

/-- Embedding of the Value enum of src/value.rs. The variant names follow the
source (Evil is the corrupted variant the spec calls Infernal). The integer
variant carries an Int; the source's i64 range shows up as explicit checks in
the operations below. -/
inductive Value where
  | integer (n : Int)
  | string (s : String)
  | boolean (b : Bool)
  | evil (s : String)
  | void
deriving DecidableEq

/-- Display impl of src/value.rs: decimal integers, raw strings, true/false
booleans, the raw stored token for evil values, empty string for void. -/
def Value.display : Value → String
  | .integer n => toString n
  | .string s => s
  | .boolean b => if b then "true" else "false"
  | .evil e => e
  | .void => ""

/-- Structural equality of Value, mirroring the derived PartialEq of
src/value.rs (variants equal iff same constructor with equal payloads,
including the evil variant). -/
def Value.beq : Value → Value → Bool
  | .integer a, .integer b => a == b
  | .string a, .string b => a == b
  | .boolean a, .boolean b => a == b
  | .evil a, .evil b => a == b
  | .void, .void => true
  | _, _ => false

/-- Addition operator of src/value.rs (impl Add for Value). The match arms are
in source order. The fresh argument stands for the random token produced by
Value::corrupted for this call; curse stands for the zalgo rendering used by
Value::corrupt, so that v.corrupt() displays as curse of v's display. -/
def Value.add (fresh : String) (curse : String → String) : Value → Value → Value
  | .integer i1, .integer i2 =>
      if inI64 (i1 + i2) then .integer (i1 + i2) else .evil fresh
  | .string s1, .string s2 => .string (s1 ++ s2)
  | .string s, .integer i => .string (s ++ toString i)
  | .string s, .boolean b => .string (s ++ (if b then "true" else "false"))
  | .integer i, .string s => .string (toString i ++ s)
  | .boolean b, .string s => .string ((if b then "true" else "false") ++ s)
  | .evil e, v => .evil (e ++ curse v.display)
  | v, .evil e => .evil (e ++ curse v.display)
  | .void, v => v
  | v, .void => v
  | _, _ => .evil fresh

/-- Division operator of src/value.rs (impl Div for Value). checked_div fails
exactly on a zero divisor or on i64::MIN divided by -1; Rust integer division
truncates toward zero, which is Int.tdiv. -/
def Value.div (fresh : String) : Value → Value → Value
  | .integer i1, .integer i2 =>
      if i2 = 0 then .evil fresh
      else if i1 = i64Min ∧ i2 = -1 then .evil fresh
      else .integer (Int.tdiv i1 i2)
  | .void, v => v
  | v, .void => v
  | _, _ => .evil fresh

/-- Negation operator of src/value.rs (impl Neg for Value). checked_neg fails
exactly on i64::MIN. -/
def Value.neg (fresh : String) : Value → Value
  | .integer i => if i = i64Min then .evil fresh else .integer (-i)
  | .void => .void
  | _ => .evil fresh

theorem Value.beq_iff_eq (v w : Value) : Value.beq v w = true ↔ v = w := by
  cases v <;> cases w <;> simp [Value.beq]

/-- Embedding of the Expr enum of src/scroll/expression.rs. An absent target
means the entity itself. -/
inductive Expr where
  | moan (target : Option String)
  | remembering (target : Option String) (v : Value)
  | rend
  | turn
  | value (v : Value)

/-- Embedding of the Stmt enum of src/scroll/statement.rs. -/
inductive Stmt where
  | animate (target : Option String)
  | banish (target : Option String)
  | disturb (target : Option String)
  | forget (target : Option String)
  | invoke (target : Option String)
  | remember (target : Option String) (exprs : List Expr)
  | say (target : Option String) (exprs : List Expr)
  | shambleUntil (cond : Expr) (body : List Stmt)
  | shambleAround (body : List Stmt)
  | stumble
  | taste (cond : Expr) (thenBody elseBody : List Stmt)

/-- Embedding of the Species enum of src/scroll/entity.rs. -/
inductive Species where
  | zombie
  | ghost
  | vampire
  | demon
  | djinn
deriving DecidableEq

/-- Embedding of Task of src/scroll/task.rs: a named, ordered statement list
(named ZTask here because Task is already taken by the Lean core library). -/
structure ZTask where
  name : String
  active : Bool
  stmts : List Stmt

/-- Embedding of Entity of src/scroll/entity.rs; tasks are kept in declaration
order, as the IndexMap of the source does. -/
structure Entity where
  name : String
  species : Species
  active : Bool
  memory : Value
  tasks : List ZTask

/-- Embedding of the Message enum of src/necro/mod.rs. -/
inductive Message where
  | animate (name : String)
  | disturb (name : String)
  | invoke (name : String)
  | say (v : Value)
deriving DecidableEq

/-- Embedding of SpiritState of src/necro/state.rs: the live, mutable cell of
one entity. -/
structure SpiritState where
  memory : Value
  active : Bool
deriving DecidableEq

/-- Tag identifying which statement kind was executed, used in run traces. -/
inductive StmtTag where
  | animate
  | banish
  | disturb
  | forget
  | invoke
  | remember
  | say
  | shambleUntil
  | shambleAround
  | stumble
  | taste
deriving DecidableEq

/-- Observable event of a run: entry into exec_stmt for a statement of the
given kind, a message sent on the channel, or a join error logged by unleash. -/
inductive Event where
  | exec (t : StmtTag)
  | sent (m : Message)
  | fatal (msg : String)
deriving DecidableEq

/-- Randomness oracle: fresh gives the corruption token produced by the nth
random draw, curse the zalgo rendering used by Value::corrupt. -/
structure Oracle where
  fresh : Nat → String
  curse : String → String

/-- Shift the oracle's token stream by n draws. -/
def Oracle.shift (o : Oracle) (n : Nat) : Oracle :=
  { o with fresh := fun k => o.fresh (n + k) }

/-- Interpreter state of a single runner: the shared knowledge map (the DashMap
of src/necro/state.rs, as an association list with unique keys), the trace of
events so far, and the number of random draws consumed. -/
structure ExecSt where
  knowledge : List (String × SpiritState)
  events : List Event
  rand : Nat
deriving DecidableEq

/-- Append an event to the trace. -/
def ExecSt.log (st : ExecSt) (e : Event) : ExecSt :=
  { st with events := st.events ++ [e] }

/-- Per-key update of the knowledge map, mirroring DashMap::alter: the entry is
updated when the key is present and nothing happens when it is absent. -/
def kAlter (f : SpiritState → SpiritState) (name : String) :
    List (String × SpiritState) → List (String × SpiritState)
  | [] => []
  | (m, s) :: rest =>
      if m = name then (m, f s) :: rest else (m, s) :: kAlter f name rest

/-- Free function set_active of src/necro/summon.rs (the notifier wakeup has no
effect in this single-runner embedding). -/
def setActive (st : ExecSt) (name : String) (active : Bool) : ExecSt :=
  { st with knowledge := kAlter (fun s => { s with active := active }) name st.knowledge }

/-- Free function get_value of src/necro/summon.rs; the unwrap on a missing
entry is modelled by the none case. -/
def getValue (st : ExecSt) (name : String) : Option Value :=
  (List.lookup name st.knowledge).map SpiritState.memory

/-- Free function set_value of src/necro/summon.rs (DashMap::alter: silently a
no-op for a missing key). -/
def setValue (st : ExecSt) (name : String) (v : Value) : ExecSt :=
  { st with knowledge := kAlter (fun s => { s with memory := v }) name st.knowledge }

/-- One step of Spirit::eval_expr of src/necro/summon.rs against a memory
lookup function. The stack head is the Rust Vec's last element (top of stack).
none models a panic: an unwrap on a missing entity entry, or the unwrap of
stack.last after popping from a one-element stack in the Rend arm. -/
def evalExpr (mem : String → Option Value) (self : String) (fresh : String)
    (curse : String → String) (e : Expr) (stack : List Value) : Option (List Value) :=
  match e, stack with
  | .moan none, top :: rest =>
      (mem self).map fun mv => (mv.add fresh curse top) :: rest
  | .moan (some t), top :: rest =>
      (mem t).map fun mv => (mv.add fresh curse top) :: rest
  | .moan _, [] => none
  | .remembering none v, st =>
      (mem self).map fun mv => .boolean (Value.beq v mv) :: st
  | .remembering (some t) v, st =>
      (mem t).map fun mv => .boolean (Value.beq v mv) :: st
  | .rend, top :: next :: rest => some ((Value.div fresh next top) :: rest)
  | .rend, _ => none
  | .turn, top :: rest => some ((Value.neg fresh top) :: rest)
  | .turn, [] => none
  | .value v, st => some (v :: st)

/-- Loop body of Spirit::eval_exprs: the expression list has already been
reversed (the source iterates indices from the last to the first); k counts
the expressions processed so far and indexes the oracle's token stream. -/
def evalGo (mem : String → Option Value) (self : String) (o : Oracle) :
    List Expr → Nat → List Value → Option (List Value)
  | [], _, stack => some stack
  | e :: rest, k, stack =>
      (evalExpr mem self (o.fresh k) o.curse e stack).bind (evalGo mem self o rest (k + 1))

/-- Spirit::eval_exprs of src/necro/summon.rs: a local stack seeded with Void,
the expressions processed in reverse order, and the final stack top popped as
the result. -/
def evalExprs (mem : String → Option Value) (self : String) (o : Oracle)
    (exprs : List Expr) : Option Value :=
  (evalGo mem self o exprs.reverse 0 [Value.void]).bind List.head?

/-- Spirit::eval_standalone_expr of src/necro/summon.rs: a single expression
evaluated on a fresh stack seeded with Void. -/
def evalStandalone (mem : String → Option Value) (self : String) (o : Oracle)
    (e : Expr) : Option Value :=
  (evalExpr mem self (o.fresh 0) o.curse e [Value.void]).bind List.head?

/-- Outcome of running part of a task: normal completion carrying a value (the
RunningTask active flag for statement execution), a panic of the enclosing
tokio task carrying a message, parking forever on the activity notifier (the
gate loop of exec_stmts when the entity is inactive and, in this single-runner
embedding, nothing will wake it), or fuel exhaustion (the run is still going). -/
inductive RunRes (α : Type) where
  | ok (a : α) (st : ExecSt)
  | panicked (msg : String) (st : ExecSt)
  | parked (st : ExecSt)
  | out (st : ExecSt)
deriving DecidableEq

/-- Event trace carried by a run outcome. -/
def RunRes.events {α : Type} : RunRes α → List Event
  | .ok _ st => st.events
  | .panicked _ st => st.events
  | .parked st => st.events
  | .out st => st.events

/-- Whether the outcome is a panic. -/
def RunRes.isPanicked {α : Type} : RunRes α → Bool
  | .panicked _ _ => true
  | _ => false

mutual

/-- Spirit::exec_stmt of src/necro/summon.rs, fuel-bounded. The Bool argument
and result are the RunningTask active flag. Every arm first records entry into
the statement; match arms follow the source. -/
def execStmt (o : Oracle) (self : String) :
    Nat → Bool → ExecSt → Stmt → RunRes Bool
  | 0, _, st, _ => .out st
  | _ + 1, task, st, .animate none =>
      .ok task ((st.log (.exec .animate)).log (.sent (.animate self)))
  | _ + 1, task, st, .animate (some n) =>
      .ok task ((st.log (.exec .animate)).log (.sent (.animate n)))
  | _ + 1, task, st, .banish none =>
      .ok task (setActive (st.log (.exec .banish)) self false)
  | _ + 1, task, st, .banish (some n) =>
      .ok task (setActive (st.log (.exec .banish)) n false)
  | _ + 1, task, st, .disturb none =>
      .ok task ((st.log (.exec .disturb)).log (.sent (.disturb self)))
  | _ + 1, task, st, .disturb (some n) =>
      .ok task ((st.log (.exec .disturb)).log (.sent (.disturb n)))
  | _ + 1, task, st, .forget none =>
      .ok task (setValue (st.log (.exec .forget)) self Value.void)
  | _ + 1, task, st, .forget (some n) =>
      .ok task (setValue (st.log (.exec .forget)) n Value.void)
  | _ + 1, task, st, .invoke none =>
      .ok task ((st.log (.exec .invoke)).log (.sent (.invoke self)))
  | _ + 1, task, st, .invoke (some n) =>
      .ok task ((st.log (.exec .invoke)).log (.sent (.invoke n)))
  | _ + 1, task, st, .remember none exprs =>
      let st1 := st.log (.exec .remember)
      let st2 := { st1 with rand := st1.rand + exprs.length }
      match evalExprs (getValue st1) self (o.shift st1.rand) exprs with
      | none => .panicked "unwrap on missing entity" st2
      | some v => .ok task (setValue st2 self v)
  | _ + 1, task, st, .remember (some n) exprs =>
      let st1 := st.log (.exec .remember)
      let st2 := { st1 with rand := st1.rand + exprs.length }
      match evalExprs (getValue st1) self (o.shift st1.rand) exprs with
      | none => .panicked "unwrap on missing entity" st2
      | some v => .ok task (setValue st2 n v)
  | _ + 1, task, st, .say _ exprs =>
      let st1 := st.log (.exec .say)
      let st2 := { st1 with rand := st1.rand + exprs.length }
      match evalExprs (getValue st1) self (o.shift st1.rand) exprs with
      | none => .panicked "unwrap on missing entity" st2
      | some v => .ok task (st2.log (.sent (.say v)))
  | fuel + 1, task, st, .shambleUntil cond body =>
      untilLoop o self fuel task (st.log (.exec .shambleUntil)) cond body
  | fuel + 1, task, st, .shambleAround body =>
      aroundLoop o self fuel task (st.log (.exec .shambleAround)) body
  | _ + 1, _, st, .stumble => .ok false (st.log (.exec .stumble))
  | fuel + 1, task, st, .taste cond thenBody elseBody =>
      let st1 := st.log (.exec .taste)
      let st2 := { st1 with rand := st1.rand + 1 }
      match evalStandalone (getValue st1) self (o.shift st1.rand) cond with
      | none => .panicked "unwrap on missing entity" st2
      | some (.boolean true) => execStmts o self fuel task st2 thenBody
      | some (.boolean false) => execStmts o self fuel task st2 elseBody
      | some v => .panicked ("Not a boolean: " ++ v.display) st2

/-- Loop of the ShambleUntil arm of Spirit::exec_stmt: evaluate the condition,
exit on Boolean true, run the body on Boolean false (and loop), panic on any
other value. The loop never looks at the RunningTask flag. -/
def untilLoop (o : Oracle) (self : String) :
    Nat → Bool → ExecSt → Expr → List Stmt → RunRes Bool
  | 0, _, st, _, _ => .out st
  | fuel + 1, task, st, cond, body =>
      let st1 := { st with rand := st.rand + 1 }
      match evalStandalone (getValue st) self (o.shift st.rand) cond with
      | none => .panicked "unwrap on missing entity" st1
      | some (.boolean true) => .ok task st1
      | some (.boolean false) =>
          match execStmts o self fuel task st1 body with
          | .ok task2 st2 => untilLoop o self fuel task2 st2 cond body
          | r => r
      | some v => .panicked ("Not a boolean: " ++ v.display) st1

/-- Loop of the ShambleAround arm of Spirit::exec_stmt: run the body forever;
the loop itself never inspects the RunningTask flag. -/
def aroundLoop (o : Oracle) (self : String) :
    Nat → Bool → ExecSt → List Stmt → RunRes Bool
  | 0, _, st, _ => .out st
  | fuel + 1, task, st, body =>
      match execStmts o self fuel task st body with
      | .ok task2 st2 => aroundLoop o self fuel task2 st2 body
      | r => r

/-- Spirit::exec_stmts of src/necro/summon.rs: for each statement, first gate
on the entity's active flag (unwrap panics if the runner's own entry is
missing; an inactive entity parks the runner on the notifier), then execute
the statement, then stop the task when the RunningTask flag has become false. -/
def execStmts (o : Oracle) (self : String) :
    Nat → Bool → ExecSt → List Stmt → RunRes Bool
  | 0, _, st, _ => .out st
  | _ + 1, task, st, [] => .ok task st
  | fuel + 1, task, st, s :: rest =>
      match List.lookup self st.knowledge with
      | none => .panicked "unwrap on missing entity" st
      | some sp =>
          if sp.active then
            match execStmt o self fuel task st s with
            | .ok task2 st2 =>
                if task2 then execStmts o self fuel task2 st2 rest
                else .ok task2 st2
            | r => r
          else .parked st

end

/-- Spirit::perform of src/necro/summon.rs: run one task's statements with a
fresh RunningTask (active flag true). -/
def perform (o : Oracle) (self : String) (fuel : Nat) (st : ExecSt)
    (t : ZTask) : RunRes Bool :=
  execStmts o self fuel true st t.stmts

/-- Sequential task loop of Spirit::unleash (Zombie, Ghost, Vampire arms): each
task runs in its own spawned tokio task that is awaited; a JoinError from a
panicking task is logged with error and the loop continues with the next
task. -/
def runTasks (o : Oracle) (self : String) (fuel : Nat) :
    List ZTask → ExecSt → RunRes Unit
  | [], st => .ok () st
  | t :: rest, st =>
      match perform o self fuel st t with
      | .ok _ st2 => runTasks o self fuel rest st2
      | .panicked m st2 => runTasks o self fuel rest (st2.log (.fatal m))
      | .parked st2 => .parked st2
      | .out st2 => .out st2

/-- Spirit::unleash of src/necro/summon.rs: species dispatch. Zombie and Ghost
run the declared tasks in order (the Ghost's random sleeps do not change any
state and are dropped in this embedding); Vampire runs a shuffled order, with
the shuffle supplied as an oracle; the Demon and Djinn arms of the source are
literally todo macros, so the runner's tokio task panics before doing
anything. -/
def unleash (o : Oracle) (shuffle : List ZTask → List ZTask) (self : String)
    (fuel : Nat) (species : Species) (tasks : List ZTask) (st : ExecSt) :
    RunRes Unit :=
  match species with
  | .zombie => runTasks o self fuel tasks st
  | .ghost => runTasks o self fuel tasks st
  | .vampire => runTasks o self fuel (shuffle tasks) st
  | .demon => .panicked "not yet implemented" st
  | .djinn => .panicked "not yet implemented" st

/-- Observable effect of the ritual's message loop. -/
inductive HandlerEffect where
  | spawned (name : String)
  | printed (s : String)
deriving DecidableEq

/-- Message handler of Necromancer::initiate in src/necro/mod.rs: Animate
spawns a new runner only for a Zombie, Disturb only for a Ghost, Invoke
always; Say prints the displayed value. The lookup of the named creature is
unwrapped, so a missing name is a panic of the handler task (none). -/
def handleMessage (creatures : String → Option Entity) :
    Message → Option (List HandlerEffect)
  | .animate n =>
      (creatures n).map fun c =>
        if c.species = .zombie then [.spawned n] else []
  | .disturb n =>
      (creatures n).map fun c =>
        if c.species = .ghost then [.spawned n] else []
  | .invoke n => (creatures n).map fun _ => [.spawned n]
  | .say v => some [.printed v.display]

/-- Candle bookkeeping of Ritual in src/necro/mod.rs. A candle is an Arc
holding the entity name; the candles field of Ritual is a DashSet of such
Arcs. Arcs are equal when the names they hold are equal, so the set retains
at most one Arc per name. Here each Arc created by Ritual::summon is given a
fresh id; counts maps an Arc id to its strong count, candleSet records which
Arc id the DashSet holds for a name, and runners lists the Arc id and entity
name held by each live runner. -/
structure CandleSys where
  nextId : Nat
  counts : List (Nat × Nat)
  candleSet : List (String × Nat)
  runners : List (Nat × String)

/-- Ritual::summon of src/necro/mod.rs, candle part: a new Arc is created with
count 1 (the local candle binding), a clone is inserted into the DashSet and
the runner is spawned holding the original. When the set already holds an Arc
for this name the insert fails and the clone is dropped again, so the stored
Arc's count is unchanged and the new Arc's count stays 1; otherwise the set
keeps the clone and the new Arc's count is 2. -/
def candleSummon (cs : CandleSys) (name : String) : CandleSys :=
  let aid := cs.nextId
  match List.lookup name cs.candleSet with
  | some _ =>
      { nextId := aid + 1
        counts := cs.counts ++ [(aid, 1)]
        candleSet := cs.candleSet
        runners := cs.runners ++ [(aid, name)] }
  | none =>
      { nextId := aid + 1
        counts := cs.counts ++ [(aid, 2)]
        candleSet := cs.candleSet ++ [(name, aid)]
        runners := cs.runners ++ [(aid, name)] }

/-- Completion of a runner: its unleash future returns, dropping the candle
Arc it held, which decrements that Arc's strong count. -/
def candleFinish (cs : CandleSys) (aid : Nat) : CandleSys :=
  { cs with
      counts := cs.counts.map fun p => if p.1 = aid then (p.1, p.2 - 1) else p
      runners := cs.runners.filter fun r => r.1 != aid }

/-- Strong count of the Arc the DashSet holds for a name: what
Ritual::watchdog observes with Arc::strong_count(candles.get(key).unwrap());
none models the unwrap panic on a missing entry. -/
def observedCount (cs : CandleSys) (name : String) : Option Nat :=
  (List.lookup name cs.candleSet).bind fun aid => List.lookup aid cs.counts

/-- Number of live runners for a name (the quantity the candle count is
documented to track). -/
def runnersFor (cs : CandleSys) (name : String) : Nat :=
  (cs.runners.filter fun r => r.2 == name).length

/-- Ritual::watchdog predicate of src/necro/mod.rs: abort everything when
every entity is inactive or the strong count of its stored candle is at most
1. The iteration short-circuits like all with a boolean or; none models the
unwrap panic when an active entity has no stored candle. -/
def watchdogAborts : List (String × SpiritState) → CandleSys → Option Bool
  | [], _ => some true
  | (n, sp) :: rest, cs =>
      if sp.active then
        match observedCount cs n with
        | none => none
        | some c => if c ≤ 1 then watchdogAborts rest cs else some false
      else watchdogAborts rest cs

/-- Modelled from the spec: one step of the expression table of section 4.3
(Value pushes, Moan add-folds memory into the top, Remembering pushes the
boolean memory-equals-v, Rend pops and divides the new top by the popped top,
Turn negates the top), used to state the evaluator claim as a refinement. -/
def specStep (mem : String → Option Value) (self : String) (fresh : String)
    (curse : String → String) (e : Expr) (stack : List Value) : Option (List Value) :=
  match e with
  | .value v => some (v :: stack)
  | .moan t =>
      match stack with
      | top :: rest => (mem (t.getD self)).map fun mv => (mv.add fresh curse top) :: rest
      | [] => none
  | .remembering t v =>
      (mem (t.getD self)).map fun mv => (.boolean (Value.beq mv v)) :: stack
  | .rend =>
      match stack with
      | top :: newTop :: rest => some ((Value.div fresh newTop top) :: rest)
      | _ => none
  | .turn =>
      match stack with
      | top :: rest => some ((Value.neg fresh top) :: rest)
      | [] => none

/-- Modelled from the spec: process the expression sequence in reverse order
(last-to-first) over a stack seeded with Void, counting how many expressions
have been processed to index the oracle. -/
def specRun (mem : String → Option Value) (self : String) (o : Oracle) :
    List Expr → Option (Nat × List Value)
  | [] => some (0, [Value.void])
  | e :: rest =>
      (specRun mem self o rest).bind fun p =>
        (specStep mem self (o.fresh p.1) o.curse e p.2).map fun stack => (p.1 + 1, stack)

/-- Modelled from the spec: the result of the whole evaluation is the final
top of the stack. -/
def specEvalExprs (mem : String → Option Value) (self : String) (o : Oracle)
    (exprs : List Expr) : Option Value :=
  (specRun mem self o exprs).bind fun p => p.2.head?

/-- All Moan and Remembering targets of the expressions resolve in the memory
lookup function. -/
def targetsResolve (mem : String → Option Value) (self : String) : List Expr → Bool
  | [] => true
  | .moan t :: rest =>
      (mem (t.getD self)).isSome && targetsResolve mem self rest
  | .remembering t _ :: rest =>
      (mem (t.getD self)).isSome && targetsResolve mem self rest
  | _ :: rest => targetsResolve mem self rest

/-- Stack discipline of an expression list in processing order, starting from
a stack of n values: Moan and Turn need one value, Rend needs two and leaves
one fewer, Value and Remembering push one. -/
def stackSafe : Nat → List Expr → Bool
  | _, [] => true
  | n, .value _ :: rest => stackSafe (n + 1) rest
  | n, .moan _ :: rest => decide (1 ≤ n) && stackSafe n rest
  | n, .remembering _ _ :: rest => stackSafe (n + 1) rest
  | n, .rend :: rest => decide (2 ≤ n) && stackSafe (n - 1) rest
  | n, .turn :: rest => decide (1 ≤ n) && stackSafe n rest

/-- Fixture oracle with a constant corruption token and the identity curse. -/
def sampleOracle : Oracle := ⟨fun _ => "tok", fun s => s⟩

/-- Fixture state: a single entity p with Void memory, active. -/
def pState : ExecSt := ⟨[("p", ⟨Value.void, true⟩)], [], 0⟩

/-- Fixture state: a single demon entity d with Void memory, active. -/
def demonState : ExecSt := ⟨[("d", ⟨Value.void, true⟩)], [], 0⟩

/-- Fixture: the empty candle bookkeeping at ritual start. -/
def candle0 : CandleSys := ⟨0, [], [], []⟩

/-- Fixture: a declared zombie entity named z with no tasks. -/
def zombieEntity : Entity := ⟨"z", .zombie, true, .void, []⟩

theorem Value.beq_comm (v w : Value) : Value.beq v w = Value.beq w v := by
  by_cases h : v = w
  · subst h; rfl
  · have h1 : Value.beq v w = false :=
      Bool.eq_false_iff.mpr fun ht => h ((Value.beq_iff_eq v w).mp ht)
    have h2 : Value.beq w v = false :=
      Bool.eq_false_iff.mpr fun ht => h ((Value.beq_iff_eq w v).mp ht).symm
    rw [h1, h2]

/-- C4 counterexample: the derived PartialEq of src/value.rs is structural on
the Evil variant as well, so an Infernal value with token a is equal to
itself, and Remembering pushes Boolean true when the literal and the memory
are the same Infernal value — the claim that any comparison involving an
Infernal value yields false is refuted. -/
theorem c4_evil_self_equality :
    Value.beq (.evil "a") (.evil "a") = true
  ∧ evalExpr (fun _ => some (.evil "a")) "p" "t" (fun s => s)
      (.remembering none (.evil "a")) [.void] = some [.boolean true, .void] := by
  exact ⟨rfl, rfl⟩

/-- C4 (amended): Value equality is structural for all variants, including
Infernal: two Infernal values are equal exactly when their tokens are equal
(in particular an Infernal value equals itself); a comparison between an
Infernal and a non-Infernal value is false; and Remembering(t, v) pushes the
Boolean of the structural comparison of v with memory_of(t), hence
Boolean(false) whenever exactly one of the two is Infernal. -/
theorem c4_amended_structural_equality
    (v w u vr mv : Value) (s : String)
    (mem : String → Option Value) (self fresh : String) (curse : String → String)
    (t : Option String) (stack : List Value)
    (hu : ∀ s2, u ≠ .evil s2)
    (hmem : mem (t.getD self) = some mv) :
    (Value.beq v w = true ↔ v = w)
  ∧ (Value.beq (.evil s) (.evil s) = true)
  ∧ (Value.beq u (.evil s) = false ∧ Value.beq (.evil s) u = false)
  ∧ evalExpr mem self fresh curse (.remembering t vr) stack
      = some (.boolean (Value.beq vr mv) :: stack) := by
  refine ⟨Value.beq_iff_eq v w, by simp [Value.beq], ⟨?_, ?_⟩, ?_⟩
  · cases u with
    | evil s2 => exact absurd rfl (hu s2)
    | integer n => rfl
    | string s2 => rfl
    | boolean b => rfl
    | void => rfl
  · cases u with
    | evil s2 => exact absurd rfl (hu s2)
    | integer n => rfl
    | string s2 => rfl
    | boolean b => rfl
    | void => rfl
  · cases t with
    | none => simp [evalExpr, Option.getD] at hmem ⊢; simp [hmem]
    | some n => simp [evalExpr, Option.getD] at hmem ⊢; simp [hmem]

theorem c4_witness :
    ((fun _ => some (Value.integer 3)) "p" = some (Value.integer 3))
  ∧ (Value.beq (.integer 3) (.integer 3) = true ↔ (Value.integer 3) = (.integer 3))
  ∧ (Value.beq (.evil "e") (.evil "e") = true)
  ∧ (Value.beq (.integer 3) (.evil "e") = false ∧ Value.beq (.evil "e") (.integer 3) = false)
  ∧ evalExpr (fun _ => some (Value.integer 3)) "p" "t" (fun s => s)
      (.remembering none (.evil "e")) [.void]
      = some (.boolean (Value.beq (.evil "e") (.integer 3)) :: [.void]) := by
  refine ⟨rfl, ?_⟩
  exact c4_amended_structural_equality (.integer 3) (.integer 3) (.integer 3) (.evil "e")
    (.integer 3) "e" (fun _ => some (Value.integer 3)) "p" "t" (fun s => s) none [.void]
    (by intro s2 h; cases h) rfl

/-- C5 counterexample: integers are i64, not bignums; adding 2 to the 62nd
power to itself overflows checked_add and yields a corrupted value, not the
mathematical sum. -/
theorem c5_add_overflow :
    Value.add "t" (fun s => s) (.integer (2 ^ 62)) (.integer (2 ^ 62)) = .evil "t"
  ∧ Value.add "t" (fun s => s) (.integer (2 ^ 62)) (.integer (2 ^ 62))
      ≠ .integer (2 ^ 62 + 2 ^ 62) := by decide

/-- C5 (amended): integer addition is 64-bit checked addition: the sum of
Integer(n) and Integer(m) is Integer(n + m) exactly when the mathematical sum
fits in the i64 range, and a freshly corrupted value otherwise. -/
theorem c5_amended_checked_add (n m : Int) (fresh : String) (curse : String → String) :
    (inI64 (n + m) → Value.add fresh curse (.integer n) (.integer m) = .integer (n + m))
  ∧ (¬ inI64 (n + m) → Value.add fresh curse (.integer n) (.integer m) = .evil fresh) := by
  constructor <;> intro h <;> simp [Value.add, h]

theorem c5_witness :
    Value.add "t" (fun s => s) (.integer 40) (.integer 2) = .integer 42
  ∧ Value.add "t" (fun s => s) (.integer i64Max) (.integer 1) = .evil "t" := by
  constructor
  · have h := (c5_amended_checked_add 40 2 "t" (fun s => s)).1 (by decide)
    simpa using h
  · exact (c5_amended_checked_add i64Max 1 "t" (fun s => s)).2 (by decide)

/-- C6 counterexample: dividing i64::MIN by -1 has a non-zero denominator but
overflows checked_div, so the result is a corrupted value instead of the
integer quotient. -/
theorem c6_div_overflow :
    ((-1 : Int) ≠ 0)
  ∧ Value.div "t" (.integer i64Min) (.integer (-1)) = .evil "t"
  ∧ Value.div "t" (.integer i64Min) (.integer (-1))
      ≠ .integer (Int.tdiv i64Min (-1)) := by decide

/-- C6 (amended): integer division is 64-bit checked division truncating
toward zero: for a non-zero denominator other than the overflowing pair
(i64::MIN, -1) the result is the truncated quotient; a zero denominator or
that overflowing pair yields a corrupted value. -/
theorem c6_amended_checked_div (a b : Int) (fresh : String) :
    (b ≠ 0 → ¬(a = i64Min ∧ b = -1) →
        Value.div fresh (.integer a) (.integer b) = .integer (Int.tdiv a b))
  ∧ (b = 0 → Value.div fresh (.integer a) (.integer b) = .evil fresh)
  ∧ (a = i64Min → b = -1 → Value.div fresh (.integer a) (.integer b) = .evil fresh) := by
  refine ⟨fun hb ho => ?_, fun hb => ?_, fun ha hb => ?_⟩
  · simp [Value.div, hb, ho]
  · simp [Value.div, hb]
  · subst ha; subst hb; simp [Value.div]

theorem c6_witness :
    Value.div "t" (.integer (-7)) (.integer 2) = .integer (-3)
  ∧ Value.div "t" (.integer 5) (.integer 0) = .evil "t"
  ∧ Value.div "t" (.integer i64Min) (.integer (-1)) = .evil "t" := by
  refine ⟨?_, ?_, ?_⟩
  · have h := (c6_amended_checked_div (-7) 2 "t").1 (by decide) (by decide)
    rw [h]; decide
  · exact (c6_amended_checked_div 5 0 "t").2.1 rfl
  · exact (c6_amended_checked_div i64Min (-1) "t").2.2 rfl rfl

theorem evalExpr_eq_specStep (mem : String → Option Value) (self fresh : String)
    (curse : String → String) (e : Expr) (stack : List Value) :
    evalExpr mem self fresh curse e stack = specStep mem self fresh curse e stack := by
  cases e with
  | moan t => cases t <;> cases stack <;> simp [evalExpr, specStep, Option.getD]
  | remembering t v =>
      cases t <;> simp [evalExpr, specStep, Option.getD, Value.beq_comm]
  | rend =>
      match stack with
      | [] => rfl
      | [a] => rfl
      | a :: b :: rest => rfl
  | turn => cases stack <;> rfl
  | value v => rfl

theorem evalGo_append (mem : String → Option Value) (self : String) (o : Oracle)
    (l1 l2 : List Expr) (k : Nat) (stack : List Value) :
    evalGo mem self o (l1 ++ l2) k stack =
      (evalGo mem self o l1 k stack).bind fun st2 =>
        evalGo mem self o l2 (k + l1.length) st2 := by
  induction l1 generalizing k stack with
  | nil => simp [evalGo]
  | cons e rest ih =>
      simp only [List.cons_append, evalGo, List.length_cons]
      cases evalExpr mem self (o.fresh k) o.curse e stack with
      | none => rfl
      | some st2 =>
          simp only [Option.some_bind]
          have h : k + 1 + rest.length = k + (rest.length + 1) := by omega
          rw [← h]
          exact ih (k + 1) st2

theorem specRun_eq_evalGo (mem : String → Option Value) (self : String) (o : Oracle)
    (exprs : List Expr) :
    specRun mem self o exprs =
      (evalGo mem self o exprs.reverse 0 [Value.void]).map fun stack =>
        (exprs.length, stack) := by
  induction exprs with
  | nil => rfl
  | cons e rest ih =>
      simp only [specRun, ih, List.reverse_cons, evalGo_append, List.length_reverse]
      cases hg : evalGo mem self o rest.reverse 0 [Value.void] with
      | none => rfl
      | some st2 =>
          simp [evalGo, evalExpr_eq_specStep]

/-- C1: Spirit::eval_exprs agrees with the specified evaluation everywhere:
the expressions are processed in reverse order (last-to-first) over a local
stack seeded with Void, each expression acting as the specification's table
says (Value pushes, Moan add-folds the target's memory into the top,
Remembering pushes the boolean comparison of memory with the literal, Rend
pops and divides the new top by the popped top, Turn negates the top), and
the result of the whole evaluation is the final top of the stack. -/
theorem c1_eval_exprs_refines_spec (mem : String → Option Value) (self : String)
    (o : Oracle) (exprs : List Expr) :
    evalExprs mem self o exprs = specEvalExprs mem self o exprs := by
  simp only [evalExprs, specEvalExprs, specRun_eq_evalGo]
  cases evalGo mem self o exprs.reverse 0 [Value.void] with
  | none => rfl
  | some stack => rfl

/-- C7 counterexample: the evaluator is not total in the number of Rend
operations: a single Rend on the initial one-element stack pops Void and then
unwraps the last element of the now-empty stack, a panic — even though every
entity lookup succeeds. -/
theorem c7_rend_underflow_panics :
    evalExprs (fun _ => some Value.void) "p" sampleOracle [.rend] = none := rfl

theorem evalGo_isSome (mem : String → Option Value) (self : String) (o : Oracle) :
    ∀ (l : List Expr) (k : Nat) (stack : List Value),
      targetsResolve mem self l = true → stackSafe stack.length l = true →
      1 ≤ stack.length →
      ∃ stack2, evalGo mem self o l k stack = some stack2 ∧ 1 ≤ stack2.length := by
  intro l
  induction l with
  | nil => exact fun k stack _ _ h1 => ⟨stack, rfl, h1⟩
  | cons e rest ih =>
      intro k stack ht hs h1
      cases e with
      | value v =>
          simp only [stackSafe] at hs
          simp only [targetsResolve] at ht
          obtain ⟨stack2, hg, h2⟩ :=
            ih (k + 1) (v :: stack) ht (by simpa using hs) (by simp)
          exact ⟨stack2, by simpa [evalGo, evalExpr] using hg, h2⟩
      | remembering t v =>
          simp only [stackSafe] at hs
          simp only [targetsResolve, Bool.and_eq_true] at ht
          obtain ⟨mv, hmv⟩ := Option.isSome_iff_exists.mp ht.1
          obtain ⟨stack2, hg, h2⟩ :=
            ih (k + 1) (.boolean (Value.beq v mv) :: stack) ht.2 (by simpa using hs) (by simp)
          refine ⟨stack2, ?_, h2⟩
          cases t with
          | none =>
              simp only [Option.getD] at hmv
              simpa [evalGo, evalExpr, hmv] using hg
          | some n =>
              simp only [Option.getD] at hmv
              simpa [evalGo, evalExpr, hmv] using hg
      | moan t =>
          simp only [stackSafe, Bool.and_eq_true] at hs
          simp only [targetsResolve, Bool.and_eq_true] at ht
          obtain ⟨mv, hmv⟩ := Option.isSome_iff_exists.mp ht.1
          cases stack with
          | nil => simp at h1
          | cons top rs =>
              obtain ⟨stack2, hg, h2⟩ :=
                ih (k + 1) (mv.add (o.fresh k) o.curse top :: rs) ht.2
                  (by simpa using hs.2) (by simp)
              refine ⟨stack2, ?_, h2⟩
              cases t with
              | none =>
                  simp only [Option.getD] at hmv
                  simpa [evalGo, evalExpr, hmv] using hg
              | some n =>
                  simp only [Option.getD] at hmv
                  simpa [evalGo, evalExpr, hmv] using hg
      | turn =>
          simp only [stackSafe, Bool.and_eq_true] at hs
          simp only [targetsResolve] at ht
          cases stack with
          | nil => simp at h1
          | cons top rs =>
              obtain ⟨stack2, hg, h2⟩ :=
                ih (k + 1) (top.neg (o.fresh k) :: rs) ht (by simpa using hs.2) (by simp)
              exact ⟨stack2, by simpa [evalGo, evalExpr] using hg, h2⟩
      | rend =>
          simp only [stackSafe, Bool.and_eq_true, decide_eq_true_eq] at hs
          simp only [targetsResolve] at ht
          cases stack with
          | nil => simp at h1
          | cons top rs =>
              cases rs with
              | nil => simp at hs
              | cons newTop rs2 =>
                  obtain ⟨stack2, hg, h2⟩ :=
                    ih (k + 1) (Value.div (o.fresh k) newTop top :: rs2) ht
                      (by simpa using hs.2) (by simp)
                  exact ⟨stack2, by simpa [evalGo, evalExpr] using hg, h2⟩

/-- C7 (amended): evaluation is total except for panics on stack underflow
and on missing entity lookups: for every expression sequence whose Moan and
Remembering targets all resolve and whose Rend operations each find at least
two values on the stack (the stack-discipline check over the processing
order, starting from the seeded one-element stack), evaluation completes and
returns a Value; arithmetic and domain failures only produce corrupted values
that propagate through the stack. -/
theorem c7_amended_eval_total_when_safe (mem : String → Option Value)
    (self : String) (o : Oracle) (exprs : List Expr)
    (ht : targetsResolve mem self exprs.reverse = true)
    (hs : stackSafe 1 exprs.reverse = true) :
    (evalExprs mem self o exprs).isSome = true := by
  obtain ⟨stack2, hg, h2⟩ :=
    evalGo_isSome mem self o exprs.reverse 0 [Value.void] ht (by simpa using hs) (by simp)
  rw [evalExprs, hg]
  cases stack2 with
  | nil => simp at h2
  | cons top rs => simp

theorem c7_witness :
    targetsResolve (fun n => if n = "p" then some (Value.integer 1) else none) "p"
      (List.reverse [.moan none, .rend, .value (.integer 6), .value (.integer 3)]) = true
  ∧ stackSafe 1 (List.reverse [.moan none, .rend, .value (.integer 6), .value (.integer 3)]) = true
  ∧ (evalExprs (fun n => if n = "p" then some (Value.integer 1) else none) "p" sampleOracle
      [.moan none, .rend, .value (.integer 6), .value (.integer 3)]).isSome = true := by
  refine ⟨by decide, by decide, ?_⟩
  exact c7_amended_eval_total_when_safe
    (fun n => if n = "p" then some (Value.integer 1) else none) "p" sampleOracle
    [.moan none, .rend, .value (.integer 6), .value (.integer 3)] (by decide) (by decide)

/-- C2: the claim fails in the source. The ShambleAround arm of
Spirit::exec_stmt loops on exec_stmts without ever consulting the RunningTask
flag, and exec_stmts checks the flag only after executing a statement; hence
after Stumble runs inside a ShambleAround body, the first statement of the
body keeps being executed on every further loop iteration, and the runner
never proceeds to the next task. The trace below shows the Say statement
executing again (repeatedly) after the Stumble event, and in a runner with a
second task the second task's Say is never reached. -/
theorem c2_stumble_inside_loop_keeps_executing :
    (execStmts sampleOracle "p" 9 true pState
        [.shambleAround [.say none [.value (.integer 1)], .stumble]]).events
      = [.exec .shambleAround, .exec .say, .sent (.say (.integer 1)), .exec .stumble,
         .exec .say, .sent (.say (.integer 1)), .exec .say, .sent (.say (.integer 1)),
         .exec .say, .sent (.say (.integer 1)), .exec .say, .sent (.say (.integer 1))]
  ∧ ((runTasks sampleOracle "p" 9
        [⟨"loop", true, [.shambleAround [.say none [.value (.integer 1)], .stumble]]⟩,
         ⟨"next", true, [.say none [.value (.integer 2)]]⟩] pState).events).contains
        (.sent (.say (.integer 2))) = false := by decide

theorem kAlter_of_lookup_none (f : SpiritState → SpiritState) (name : String)
    (l : List (String × SpiritState)) (h : List.lookup name l = none) :
    kAlter f name l = l := by
  induction l with
  | nil => rfl
  | cons p rest ih =>
      obtain ⟨m, s⟩ := p
      rw [List.lookup] at h
      cases hnm : (name == m) with
      | true =>
          rw [hnm] at h
          exact absurd (h : (some s : Option SpiritState) = none) (by simp)
      | false =>
          rw [hnm] at h
          have hm : ¬ m = name := fun e => by subst e; simp at hnm
          rw [kAlter, if_neg hm, ih (h : List.lookup name rest = none)]

/-- C3 counterexample: a Zombie runner whose first task Tastes the non-boolean
condition 1 panics only in that task's spawned tokio future; Spirit::unleash
logs the join error and goes on to run the second task, whose Say executes —
so the runner does not terminate. A Banish naming a non-existent entity is a
silent DashMap::alter no-op rather than a fatal error, and a missing name in
an Animate message panics the ritual's message-handler task (none), not the
sending runner. -/
theorem c3_runner_survives_fatal_task :
    (runTasks sampleOracle "p" 9
        [⟨"t1", true, [.taste (.value (.integer 1)) [] []]⟩,
         ⟨"t2", true, [.say none [.value (.boolean true)]]⟩] pState).events
      = [.exec .taste, .fatal "Not a boolean: 1", .exec .say, .sent (.say (.boolean true))]
  ∧ execStmt sampleOracle "p" 9 true pState (.banish (some "q"))
      = .ok true (pState.log (.exec .banish))
  ∧ handleMessage (fun _ => none) (.animate "q") = none := by decide

/-- C3 (amended): a Taste or ShambleUntil condition evaluating to a
non-boolean value panics the current task of the runner; the runner catches
and logs the resulting join error and proceeds with its remaining tasks, and
other runners are unaffected. A statement target naming a non-existent entity
is a silent no-op for Banish (and the other alter-based statements), while a
non-existent name in an Animate, Disturb or Invoke message panics the
ritual's message-handler task rather than the sending runner. -/
theorem c3_amended_task_level_containment
    (o : Oracle) (self : String) (fuel : Nat) (task : Bool) (st : ExecSt)
    (cond : Expr) (tb eb body : List Stmt) (v : Value)
    (t : ZTask) (rest : List ZTask) (m : String) (st2 : ExecSt)
    (f : String → Option Entity) (n name : String)
    (hv : evalStandalone (getValue st) self (o.shift st.rand) cond = some v)
    (hb : ∀ b, v ≠ .boolean b)
    (hp : perform o self fuel st t = .panicked m st2)
    (hf : f n = none)
    (hname : List.lookup name st.knowledge = none) :
    execStmt o self (fuel + 1) task st (.taste cond tb eb)
        = .panicked ("Not a boolean: " ++ v.display)
            ⟨st.knowledge, st.events ++ [.exec .taste], st.rand + 1⟩
  ∧ untilLoop o self (fuel + 1) task st cond body
        = .panicked ("Not a boolean: " ++ v.display)
            ⟨st.knowledge, st.events, st.rand + 1⟩
  ∧ runTasks o self fuel (t :: rest) st = runTasks o self fuel rest (st2.log (.fatal m))
  ∧ handleMessage f (.animate n) = none
  ∧ handleMessage f (.disturb n) = none
  ∧ handleMessage f (.invoke n) = none
  ∧ execStmt o self (fuel + 1) task st (.banish (some name))
      = .ok task (st.log (.exec .banish)) := by
  have hv1 : evalStandalone (getValue (st.log (.exec .taste))) self
      (o.shift (st.log (.exec .taste)).rand) cond = some v := hv
  refine ⟨?_, ?_, ?_, ?_, ?_, ?_, ?_⟩
  · rw [execStmt, hv1]
    cases v with
    | boolean b => exact absurd rfl (hb b)
    | integer i => rfl
    | string s => rfl
    | evil s => rfl
    | void => rfl
  · rw [untilLoop, hv]
    cases v with
    | boolean b => exact absurd rfl (hb b)
    | integer i => rfl
    | string s => rfl
    | evil s => rfl
    | void => rfl
  · rw [runTasks, hp]
  · simp [handleMessage, hf]
  · simp [handleMessage, hf]
  · simp [handleMessage, hf]
  · have hk : kAlter (fun s => { s with active := false }) name
        (st.log (.exec .banish)).knowledge = (st.log (.exec .banish)).knowledge :=
      kAlter_of_lookup_none _ _ _ hname
    rw [execStmt]
    simp [setActive, hk]

theorem c3_witness :
    evalStandalone (getValue pState) "p" (sampleOracle.shift pState.rand)
        (.value (.integer 1)) = some (.integer 1)
  ∧ perform sampleOracle "p" 9 pState ⟨"t1", true, [.taste (.value (.integer 1)) [] []]⟩
      = .panicked "Not a boolean: 1" ⟨pState.knowledge, [.exec .taste], 1⟩
  ∧ execStmt sampleOracle "p" 10 true pState (.taste (.value (.integer 1)) [] [])
      = .panicked "Not a boolean: 1"
          ⟨pState.knowledge, pState.events ++ [.exec .taste], pState.rand + 1⟩
  ∧ runTasks sampleOracle "p" 9
        [⟨"t1", true, [.taste (.value (.integer 1)) [] []]⟩] pState
      = runTasks sampleOracle "p" 9 []
          ((⟨pState.knowledge, [.exec .taste], 1⟩ : ExecSt).log (.fatal "Not a boolean: 1"))
  ∧ handleMessage (fun _ => none) (.animate "q") = none
  ∧ execStmt sampleOracle "p" 10 true pState (.banish (some "q"))
      = .ok true (pState.log (.exec .banish)) := by
  have h := c3_amended_task_level_containment sampleOracle "p" 9 true pState
    (.value (.integer 1)) [] [] [] (.integer 1)
    ⟨"t1", true, [.taste (.value (.integer 1)) [] []]⟩ [] "Not a boolean: 1"
    ⟨pState.knowledge, [.exec .taste], 1⟩ (fun _ => none) "q" "q"
    rfl (by decide) (by decide) rfl rfl
  exact ⟨rfl, by decide, h.1, h.2.2.1, h.2.2.2.1, h.2.2.2.2.2.2⟩

/-- C8: the message handler of Necromancer::initiate spawns a new runner for
Animate(name) exactly when the named entity's species is Zombie (and is a
no-op for other species), for Disturb(name) exactly when it is Ghost, and for
Invoke(name) regardless of species. -/
theorem c8_handler_species_dispatch (f : String → Option Entity) (n : String)
    (c : Entity) (hf : f n = some c) :
    (handleMessage f (.animate n) = some [.spawned n] ↔ c.species = .zombie)
  ∧ (c.species ≠ .zombie → handleMessage f (.animate n) = some [])
  ∧ (handleMessage f (.disturb n) = some [.spawned n] ↔ c.species = .ghost)
  ∧ (c.species ≠ .ghost → handleMessage f (.disturb n) = some [])
  ∧ handleMessage f (.invoke n) = some [.spawned n] := by
  refine ⟨?_, fun h => ?_, ?_, fun h => ?_, ?_⟩
  · by_cases h : c.species = .zombie <;> simp [handleMessage, hf, h]
  · simp [handleMessage, hf, h]
  · by_cases h : c.species = .ghost <;> simp [handleMessage, hf, h]
  · simp [handleMessage, hf, h]
  · simp [handleMessage, hf]

theorem c8_witness :
    ((fun s => if s = "z" then some zombieEntity else none) "z" = some zombieEntity)
  ∧ handleMessage (fun s => if s = "z" then some zombieEntity else none) (.animate "z")
      = some [.spawned "z"]
  ∧ handleMessage (fun s => if s = "z" then some zombieEntity else none) (.disturb "z")
      = some []
  ∧ handleMessage (fun s => if s = "z" then some zombieEntity else none) (.invoke "z")
      = some [.spawned "z"] := by
  have h := c8_handler_species_dispatch
    (fun s => if s = "z" then some zombieEntity else none) "z" zombieEntity rfl
  exact ⟨rfl, h.1.mpr rfl, h.2.2.2.1 (by decide), h.2.2.2.2⟩

/-- C9: the claim fails in the source. The Demon arm of Spirit::unleash is a
todo macro (the intended sampling code is commented out), so a Demon entity's
runner panics with "not yet implemented" before performing anything: for a
demon with one declared task, no task runs at all and the trace is empty,
contradicting the guarantee that each declared task runs at least once. -/
theorem c9_demon_runner_panics_before_any_task :
    unleash sampleOracle id "d" 9 .demon
        [⟨"t", true, [.say none [.value (.integer 1)]]⟩] demonState
      = .panicked "not yet implemented" demonState
  ∧ (unleash sampleOracle id "d" 9 .demon
        [⟨"t", true, [.say none [.value (.integer 1)]]⟩] demonState).events = [] := by
  exact ⟨rfl, rfl⟩

/-- C10: the claim fails in the source. The candles DashSet keeps only the
first Arc inserted per entity name, so a second spawn of the same entity does
not change the strong count the watchdog observes (it stays 2), even though
two runners are then live; and once the first runner finishes, the observed
count drops to 1 and the watchdog's abort predicate holds although the second
(invoked) runner is still running and the entity is active. -/
theorem c10_candles_do_not_track_extra_copies :
    observedCount (candleSummon candle0 "p") "p" = some 2
  ∧ runnersFor (candleSummon candle0 "p") "p" = 1
  ∧ observedCount (candleSummon (candleSummon candle0 "p") "p") "p" = some 2
  ∧ runnersFor (candleSummon (candleSummon candle0 "p") "p") "p" = 2
  ∧ observedCount (candleFinish (candleSummon (candleSummon candle0 "p") "p") 0) "p" = some 1
  ∧ runnersFor (candleFinish (candleSummon (candleSummon candle0 "p") "p") 0) "p" = 1
  ∧ watchdogAborts [("p", ⟨Value.void, true⟩)]
        (candleFinish (candleSummon (candleSummon candle0 "p") "p") 0) = some true := by
  decide
